import Mathlib

/-!
Shallow embedding of the core logic of `src/app.py` (Stock_Trader_):
rolling indicators (`calculate_bollinger_bands`, `calculate_sma`),
signal derivation (`apply_strategy`) and the growth simulator
(`calculate_investment_growth`).

Modelling conventions:
* A pandas `DataFrame` with a datetime index becomes a `Frame`: the ordered
  list of OHLC bars plus one optional field per derived column.  A column
  that has not been assigned is `none`; inside a present column a `NaN`
  cell is `none`.
* Prices are rationals.  `pandas.rolling(w).std()` takes a square root, so
  the `STD`, `Upper Band` and `Lower Band` columns live in `ℝ`
  (`Real.sqrt` of the rational sample variance); everything else stays in
  `ℚ` and is computable.
* Column assignment (`data['SMA'] = ...`) mutates the frame in place in
  Python; the model threads the state explicitly, and the `Frame` returned
  by each function is the post-call state of the argument object.
* `iloc[0]` / `iloc[-1]` on an empty series raise in pandas, hence
  `calculate_investment_growth` returns an `Option`; on a nonempty series
  nothing in the function can raise (note `x / 0 = 0` in `ℚ` where pandas
  floats would give `inf`, reached only when `start_price = 0`).
* Comparisons against a `NaN` cell are `False` in pandas, which is why the
  signal helpers send a `none` band to the default signal `0`.
-/

namespace StockTrader

/-- One row of the price table: timestamp (ordinal) and OHLC values. -/
structure Bar where
  ts : Nat
  open_ : ℚ
  high : ℚ
  low : ℚ
  close : ℚ
deriving DecidableEq, Repr

/-- The pandas `DataFrame` of `app.py`: the OHLC bars plus the derived
columns the helpers assign.  `none` = column absent; a present column is a
per-bar list where a cell `none` models `NaN`. -/
structure Frame where
  bars : List Bar
  colSMA : Option (List (Option ℚ))
  colSTD : Option (List (Option ℝ))
  colUpper : Option (List (Option ℝ))
  colLower : Option (List (Option ℝ))
  colSMAShort : Option (List (Option ℚ))
  colSMALong : Option (List (Option ℚ))
  colSignal : Option (List Int)
  growthCols : List (String × List ℚ)

/-- A frame as handed to the core by the data adapters: only the OHLC
bars, no derived columns yet. -/
def baseFrame (bars : List Bar) : Frame :=
  ⟨bars, none, none, none, none, none, none, none, []⟩

/-- The `Close` column. -/
def closes (f : Frame) : List ℚ :=
  f.bars.map Bar.close

/-- Cell `i` of an optional column: `none` when the column is absent, the
index is out of range, or the cell is `NaN`. -/
def cellAt {α : Type} (col : Option (List (Option α))) (i : Nat) : Option α :=
  (col.bind (fun l => l.get? i)).join

/-- Cell `i` of the `Signal` column (absent column or out of range gives
`none`). -/
def sigAt (f : Frame) (i : Nat) : Option Int :=
  f.colSignal.bind (fun l => l.get? i)

/-- The trajectory column named `style ++ " Growth"`, as assigned by
`calculate_investment_growth` (`data[f'{style} Growth'] = ...`). -/
def growthCol (f : Frame) (style : String) : Option (List ℚ) :=
  f.growthCols.lookup (style ++ " Growth")

/-- `data['Close'].rolling(window=window).mean()`: at bar `i` the mean of
the `window` closes ending at `i`, `NaN` (`none`) for the first
`window - 1` bars. -/
def rollingMean (xs : List ℚ) (window : Nat) : List (Option ℚ) :=
  (List.range xs.length).map (fun i =>
    if window ≤ i + 1 then
      some (((xs.take (i + 1)).drop (i + 1 - window)).sum / (window : ℚ))
    else none)

/-- The sample variance of one full window of length `window`: squared
deviations from the window mean, summed, divided by `N - 1`. -/
def varOfWindow (win : List ℚ) (window : Nat) : ℚ :=
  (win.map (fun x => (x - win.sum / (window : ℚ)) ^ 2)).sum / ((window : ℚ) - 1)

/-- The sample variance (`ddof = 1`, the pandas default) of the rolling
window ending at bar `i`; `NaN` (`none`) for the first `window - 1` bars
and, because of the `N - 1` denominator, everywhere when `window < 2`. -/
def rollingVar (xs : List ℚ) (window : Nat) : List (Option ℚ) :=
  (List.range xs.length).map (fun i =>
    if window ≤ i + 1 ∧ 2 ≤ window then
      some (varOfWindow ((xs.take (i + 1)).drop (i + 1 - window)) window)
    else none)

/-- `data['Close'].rolling(window=window).std()`: the square root of the
rolling sample variance. -/
noncomputable def rollingStd (xs : List ℚ) (window : Nat) : List (Option ℝ) :=
  (rollingVar xs window).map (fun c => c.map (fun v => Real.sqrt (v : ℝ)))

/-- One cell of `data['SMA'] + no_of_std * data['STD']` (`NaN`
propagates through the addition). -/
def bandAdd (no_of_std : ℚ) (m : Option ℚ) (s : Option ℝ) : Option ℝ :=
  match m, s with
  | some mv, some sv => some ((mv : ℝ) + (no_of_std : ℝ) * sv)
  | _, _ => none

/-- One cell of `data['SMA'] - no_of_std * data['STD']` (`NaN`
propagates through the subtraction). -/
def bandSub (no_of_std : ℚ) (m : Option ℚ) (s : Option ℝ) : Option ℝ :=
  match m, s with
  | some mv, some sv => some ((mv : ℝ) - (no_of_std : ℝ) * sv)
  | _, _ => none

/-- `calculate_bollinger_bands(data, window=20, no_of_std=2)`: assigns the
`SMA`, `STD`, `Upper Band` and `Lower Band` columns onto the frame
(`Upper Band = SMA + no_of_std * STD`, elementwise with `NaN`
propagation) and returns it. -/
noncomputable def calculate_bollinger_bands (data : Frame) (window : Nat) (no_of_std : ℚ) : Frame :=
  let sma := rollingMean (closes data) window
  let std := rollingStd (closes data) window
  { data with
      colSMA := some sma
      colSTD := some std
      colUpper := some (List.zipWith (bandAdd no_of_std) sma std)
      colLower := some (List.zipWith (bandSub no_of_std) sma std) }

/-- `calculate_sma(data, short_window=50, long_window=200)`: assigns the
`SMA_Short` and `SMA_Long` rolling-mean columns and returns the frame. -/
def calculate_sma (data : Frame) (short_window : Nat) (long_window : Nat) : Frame :=
  { data with
      colSMAShort := some (rollingMean (closes data) short_window)
      colSMALong := some (rollingMean (closes data) long_window) }

/-- The per-bar Bollinger signal: `Signal = 0`, then `1` where
`Close < Lower Band`, then `-1` where `Close > Upper Band` (the later
assignment overwrites); a comparison against a `NaN` band is `False`. -/
noncomputable def bollingerSignalAt (c : ℚ) (lo hi : Option ℝ) : Int :=
  let buy : Int :=
    match lo with
    | some l => if (c : ℝ) < l then 1 else 0
    | none => 0
  match hi with
  | some u => if u < (c : ℝ) then -1 else buy
  | none => buy

/-- The per-bar SMA-crossover signal: `Signal = 0`, then `1` where
`SMA_Short > SMA_Long`, then `-1` where `SMA_Short < SMA_Long`; a
comparison involving a `NaN` cell is `False`. -/
def smaSignalAt (s l : Option ℚ) : Int :=
  let buy : Int :=
    match s, l with
    | some sv, some lv => if lv < sv then 1 else 0
    | _, _ => 0
  match s, l with
  | some sv, some lv => if sv < lv then -1 else buy
  | _, _ => buy

/-- `apply_strategy(data, strategy)`: computes the strategy's indicator
columns (with the Python default parameters) and the `Signal` column;
any other strategy string returns the frame unchanged. -/
noncomputable def apply_strategy (data : Frame) (strategy : String) : Frame :=
  if strategy = "Bollinger Bands" then
    let d := calculate_bollinger_bands data 20 2
    let lowerList := match d.colLower with | some l => l | none => []
    let upperList := match d.colUpper with | some l => l | none => []
    { d with colSignal := some (List.zipWith3 bollingerSignalAt (closes d) lowerList upperList) }
  else if strategy = "SMA Crossover" then
    let d := calculate_sma data 50 200
    let shortList := match d.colSMAShort with | some l => l | none => []
    let longList := match d.colSMALong with | some l => l | none => []
    { d with colSignal := some (List.zipWith smaSignalAt shortList longList) }
  else data

/-- `style_multipliers.get(style, 1.0)` with
`style_multipliers = {'Aggressive': 1.5, 'Moderate': 1.0, 'Passive': 0.75}`. -/
def style_multipliers (style : String) : ℚ :=
  if style = "Aggressive" then 3 / 2
  else if style = "Moderate" then 1
  else if style = "Passive" then 3 / 4
  else 1

/-- `calculate_investment_growth(data, amount, style)`: `start_price` and
`end_price` are `iloc[0]` / `iloc[-1]` of the full `Close` column (an
empty series raises, hence `none`); returns `(growth, roi)` together with
the post-call frame carrying the `f'{style} Growth'` trajectory column. -/
def calculate_investment_growth (data : Frame) (amount : ℚ) (style : String) :
    Option (ℚ × ℚ × Frame) :=
  match (closes data).head?, (closes data).getLast? with
  | some start_price, some end_price =>
      let multiplier := style_multipliers style
      let growth := end_price / start_price * amount * multiplier
      let roi := (growth - amount) / amount * 100
      some (growth, roi,
        { data with growthCols :=
            (style ++ " Growth",
              (closes data).map (fun c => c / start_price * amount * multiplier))
              :: data.growthCols })
  | _, _ => none

/-- The returned `growth` value alone. -/
def finalOf (data : Frame) (amount : ℚ) (style : String) : Option ℚ :=
  (calculate_investment_growth data amount style).map (fun r => r.1)

/-- The returned `(growth, roi)` pair alone. -/
def summaryOf (data : Frame) (amount : ℚ) (style : String) : Option (ℚ × ℚ) :=
  (calculate_investment_growth data amount style).map (fun r => (r.1, r.2.1))

/-- The `f'{style} Growth'` trajectory column of the post-call frame. -/
def trajOf (data : Frame) (amount : ℚ) (style : String) : Option (List ℚ) :=
  (calculate_investment_growth data amount style).bind (fun r => growthCol r.2.2 style)

/-- A bar whose four prices all equal `c`. -/
def mkBar (t : Nat) (c : ℚ) : Bar :=
  ⟨t, c, c, c, c⟩

/-- A frame of `n` daily bars with every price equal to `c`. -/
def constFrame (n : Nat) (c : ℚ) : Frame :=
  baseFrame ((List.range n).map (fun t => mkBar t c))

/-- A two-bar series whose close falls from 100 to 50. -/
def twoBarDown : Frame :=
  baseFrame [mkBar 0 100, mkBar 1 50]

/-- A one-bar series (fewer than 2 bars). -/
def oneBar : Frame :=
  baseFrame [mkBar 0 100]

/-- The three-bar series of the spec scenario: closes 100, 110, 121. -/
def threeBar : Frame :=
  baseFrame [mkBar 0 100, mkBar 1 110, mkBar 2 121]

section Lemmas

theorem cellAt_some {α : Type} (l : List (Option α)) (i : Nat) :
    cellAt (some l) i = (l.get? i).join :=
  rfl

theorem get?_zipWith3 {α β γ δ : Type} (f : α → β → γ → δ)
    (l₁ : List α) (l₂ : List β) (l₃ : List γ) (i : Nat) :
    (List.zipWith3 f l₁ l₂ l₃).get? i =
      match l₁.get? i, l₂.get? i, l₃.get? i with
      | some a, some b, some c => some (f a b c)
      | _, _, _ => none := by
  induction l₁ generalizing l₂ l₃ i with
  | nil => cases l₂ <;> cases l₃ <;> simp [List.zipWith3]
  | cons a as ih =>
    cases l₂ with
    | nil => cases l₃ <;> simp [List.zipWith3]
    | cons b bs =>
      cases l₃ with
      | nil => simp [List.zipWith3]
      | cons c cs =>
        cases i with
        | zero => simp [List.zipWith3]
        | succ j => simpa [List.zipWith3] using ih bs cs j

theorem closes_constFrame (n : Nat) (c : ℚ) :
    closes (constFrame n c) = List.replicate n c := by
  simp only [closes, constFrame, baseFrame, List.map_map]
  have hc : (Bar.close ∘ fun t => mkBar t c) = fun _ => c := rfl
  rw [hc, List.map_const', List.length_range]

theorem rollingMean_length (xs : List ℚ) (w : Nat) :
    (rollingMean xs w).length = xs.length := by
  simp [rollingMean]

theorem rollingVar_length (xs : List ℚ) (w : Nat) :
    (rollingVar xs w).length = xs.length := by
  simp [rollingVar]

theorem rollingStd_length (xs : List ℚ) (w : Nat) :
    (rollingStd xs w).length = xs.length := by
  simp [rollingStd, rollingVar_length]

theorem rollingMean_get? (xs : List ℚ) (w i : Nat) (h : i < xs.length) :
    (rollingMean xs w).get? i =
      some (if w ≤ i + 1 then
        some (((xs.take (i + 1)).drop (i + 1 - w)).sum / (w : ℚ))
      else none) := by
  have h1 : (List.range xs.length).get? i = some i := List.get?_range h
  simp only [rollingMean, List.get?_map, h1, Option.map_some']

theorem rollingVar_get? (xs : List ℚ) (w i : Nat) (h : i < xs.length) :
    (rollingVar xs w).get? i =
      some (if w ≤ i + 1 ∧ 2 ≤ w then
        some (varOfWindow ((xs.take (i + 1)).drop (i + 1 - w)) w)
      else none) := by
  have h1 : (List.range xs.length).get? i = some i := List.get?_range h
  simp only [rollingVar, List.get?_map, h1, Option.map_some']

theorem rollingStd_get? (xs : List ℚ) (w i : Nat) :
    (rollingStd xs w).get? i =
      ((rollingVar xs w).get? i).map (fun c => c.map (fun v => Real.sqrt (v : ℝ))) := by
  simp only [rollingStd, List.get?_map]

theorem window_replicate (n w i : Nat) (c : ℚ) (hi : i < n) (hwi : w ≤ i + 1) :
    ((List.replicate n c).take (i + 1)).drop (i + 1 - w) = List.replicate w c := by
  rw [List.take_replicate, List.drop_replicate]
  congr 1
  omega

theorem rollingMean_replicate (n w i : Nat) (c : ℚ) (hw : 0 < w) (hi : i < n)
    (hwi : w ≤ i + 1) :
    (rollingMean (List.replicate n c) w).get? i = some (some c) := by
  rw [rollingMean_get? _ _ _ (by simpa using hi), if_pos hwi,
    window_replicate n w i c hi hwi]
  have hw0 : (w : ℚ) ≠ 0 := by exact_mod_cast hw.ne.symm
  simp [List.sum_replicate, nsmul_eq_mul]
  field_simp

theorem varOfWindow_replicate (w : Nat) (c : ℚ) (hw : 0 < w) :
    varOfWindow (List.replicate w c) w = 0 := by
  have hw0 : (w : ℚ) ≠ 0 := by exact_mod_cast hw.ne.symm
  have hμ : (List.replicate w c).sum / (w : ℚ) = c := by
    rw [List.sum_replicate, nsmul_eq_mul]
    field_simp
  simp only [varOfWindow, hμ]
  simp [List.map_replicate, List.sum_replicate]

theorem rollingVar_replicate (n w i : Nat) (c : ℚ) (hw : 2 ≤ w) (hi : i < n)
    (hwi : w ≤ i + 1) :
    (rollingVar (List.replicate n c) w).get? i = some (some 0) := by
  rw [rollingVar_get? _ _ _ (by simpa using hi), if_pos ⟨hwi, hw⟩,
    window_replicate n w i c hi hwi, varOfWindow_replicate w c (by omega)]

theorem rollingStd_replicate (n w i : Nat) (c : ℚ) (hw : 2 ≤ w) (hi : i < n)
    (hwi : w ≤ i + 1) :
    (rollingStd (List.replicate n c) w).get? i = some (some 0) := by
  rw [rollingStd_get?, rollingVar_replicate n w i c hw hi hwi]
  simp

theorem bollinger_colSMA (f : Frame) (w : Nat) (k : ℚ) :
    (calculate_bollinger_bands f w k).colSMA = some (rollingMean (closes f) w) :=
  rfl

theorem bollinger_colSTD (f : Frame) (w : Nat) (k : ℚ) :
    (calculate_bollinger_bands f w k).colSTD = some (rollingStd (closes f) w) :=
  rfl

theorem bollinger_colUpper (f : Frame) (w : Nat) (k : ℚ) :
    (calculate_bollinger_bands f w k).colUpper =
      some (List.zipWith (bandAdd k) (rollingMean (closes f) w) (rollingStd (closes f) w)) :=
  rfl

theorem bollinger_colLower (f : Frame) (w : Nat) (k : ℚ) :
    (calculate_bollinger_bands f w k).colLower =
      some (List.zipWith (bandSub k) (rollingMean (closes f) w) (rollingStd (closes f) w)) :=
  rfl

theorem bollinger_bars (f : Frame) (w : Nat) (k : ℚ) :
    (calculate_bollinger_bands f w k).bars = f.bars :=
  rfl

theorem sma_bars (f : Frame) (sw lw : Nat) :
    (calculate_sma f sw lw).bars = f.bars :=
  rfl

theorem sma_colShort (f : Frame) (sw lw : Nat) :
    (calculate_sma f sw lw).colSMAShort = some (rollingMean (closes f) sw) :=
  rfl

theorem sma_colLong (f : Frame) (sw lw : Nat) :
    (calculate_sma f sw lw).colSMALong = some (rollingMean (closes f) lw) :=
  rfl

theorem apply_bb_colSignal (f : Frame) :
    (apply_strategy f "Bollinger Bands").colSignal =
      some (List.zipWith3 bollingerSignalAt (closes f)
        (List.zipWith (bandSub 2) (rollingMean (closes f) 20) (rollingStd (closes f) 20))
        (List.zipWith (bandAdd 2) (rollingMean (closes f) 20) (rollingStd (closes f) 20))) :=
  rfl

theorem apply_bb_colLower (f : Frame) :
    (apply_strategy f "Bollinger Bands").colLower =
      (calculate_bollinger_bands f 20 2).colLower :=
  rfl

theorem apply_bb_colUpper (f : Frame) :
    (apply_strategy f "Bollinger Bands").colUpper =
      (calculate_bollinger_bands f 20 2).colUpper :=
  rfl

theorem apply_sma_colSignal (f : Frame) :
    (apply_strategy f "SMA Crossover").colSignal =
      some (List.zipWith smaSignalAt (rollingMean (closes f) 50) (rollingMean (closes f) 200)) :=
  rfl

theorem apply_sma_colShort (f : Frame) :
    (apply_strategy f "SMA Crossover").colSMAShort =
      (calculate_sma f 50 200).colSMAShort :=
  rfl

theorem apply_sma_colLong (f : Frame) :
    (apply_strategy f "SMA Crossover").colSMALong =
      (calculate_sma f 50 200).colSMALong :=
  rfl

theorem std_cell_inv (xs : List ℚ) (w i : Nat) (s : ℝ)
    (h : (rollingStd xs w).get? i = some (some s)) :
    ∃ v : ℚ, (rollingVar xs w).get? i = some (some v) ∧ s = Real.sqrt (v : ℝ) := by
  rw [rollingStd_get?] at h
  rcases h1 : (rollingVar xs w).get? i with _ | ov
  · rw [h1] at h; simp at h
  · rw [h1] at h
    rcases ov with _ | v
    · simp at h
    · refine ⟨v, rfl, ?_⟩
      simp at h
      exact h.symm

theorem upper_cell_inv (f : Frame) (w i : Nat) (k : ℚ) (u : ℝ)
    (hu : cellAt (calculate_bollinger_bands f w k).colUpper i = some u) :
    ∃ (m v : ℚ), (rollingMean (closes f) w).get? i = some (some m) ∧
      (rollingVar (closes f) w).get? i = some (some v) ∧
      u = (m : ℝ) + (k : ℝ) * Real.sqrt (v : ℝ) := by
  rw [bollinger_colUpper, cellAt_some] at hu
  have hz := Option.join_eq_some.mp hu
  rw [List.get?_zipWith_eq_some] at hz
  obtain ⟨x, y, hx, hy, hxy⟩ := hz
  rcases x with _ | m
  · rcases y with _ | s <;> simp [bandAdd] at hxy
  · rcases y with _ | s
    · simp [bandAdd] at hxy
    · simp only [bandAdd] at hxy
      obtain ⟨v, hv, hs⟩ := std_cell_inv (closes f) w i s hy
      refine ⟨m, v, hx, hv, ?_⟩
      rw [← hs]
      exact (Option.some_inj.mp hxy).symm

theorem lower_cell_inv (f : Frame) (w i : Nat) (k : ℚ) (u : ℝ)
    (hu : cellAt (calculate_bollinger_bands f w k).colLower i = some u) :
    ∃ (m v : ℚ), (rollingMean (closes f) w).get? i = some (some m) ∧
      (rollingVar (closes f) w).get? i = some (some v) ∧
      u = (m : ℝ) - (k : ℝ) * Real.sqrt (v : ℝ) := by
  rw [bollinger_colLower, cellAt_some] at hu
  have hz := Option.join_eq_some.mp hu
  rw [List.get?_zipWith_eq_some] at hz
  obtain ⟨x, y, hx, hy, hxy⟩ := hz
  rcases x with _ | m
  · rcases y with _ | s <;> simp [bandSub] at hxy
  · rcases y with _ | s
    · simp [bandSub] at hxy
    · simp only [bandSub] at hxy
      obtain ⟨v, hv, hs⟩ := std_cell_inv (closes f) w i s hy
      refine ⟨m, v, hx, hv, ?_⟩
      rw [← hs]
      exact (Option.some_inj.mp hxy).symm

theorem bollinger_cells_of (f : Frame) (w i : Nat) (k m v : ℚ)
    (hm : (rollingMean (closes f) w).get? i = some (some m))
    (hv : (rollingVar (closes f) w).get? i = some (some v)) :
    cellAt (calculate_bollinger_bands f w k).colSMA i = some m ∧
    cellAt (calculate_bollinger_bands f w k).colSTD i = some (Real.sqrt (v : ℝ)) ∧
    cellAt (calculate_bollinger_bands f w k).colUpper i
      = some ((m : ℝ) + (k : ℝ) * Real.sqrt (v : ℝ)) ∧
    cellAt (calculate_bollinger_bands f w k).colLower i
      = some ((m : ℝ) - (k : ℝ) * Real.sqrt (v : ℝ)) := by
  have hstd : (rollingStd (closes f) w).get? i = some (some (Real.sqrt (v : ℝ))) := by
    rw [rollingStd_get?, hv]; rfl
  refine ⟨?_, ?_, ?_, ?_⟩
  · rw [bollinger_colSMA, cellAt_some, hm]; rfl
  · rw [bollinger_colSTD, cellAt_some, hstd]; rfl
  · rw [bollinger_colUpper, cellAt_some, List.get?_zipWith' (bandAdd k), hm, hstd]; rfl
  · rw [bollinger_colLower, cellAt_some, List.get?_zipWith' (bandSub k), hm, hstd]; rfl

theorem sigAt_eq (f : Frame) (L : List Int) (i : Nat) (h : f.colSignal = some L) :
    sigAt f i = L.get? i := by
  rw [sigAt, h]
  rfl

theorem sigAt_bb (f : Frame) (i : Nat) (c : ℚ) (hc : (closes f).get? i = some c) :
    sigAt (apply_strategy f "Bollinger Bands") i =
      some (bollingerSignalAt c
        (cellAt (calculate_bollinger_bands f 20 2).colLower i)
        (cellAt (calculate_bollinger_bands f 20 2).colUpper i)) := by
  obtain ⟨hi, -⟩ := List.get?_eq_some.mp hc
  have hlenL : (List.zipWith (bandSub (2 : ℚ)) (rollingMean (closes f) 20)
      (rollingStd (closes f) 20)).length = (closes f).length := by
    simp [List.length_zipWith, rollingMean_length, rollingStd_length]
  have hlenU : (List.zipWith (bandAdd (2 : ℚ)) (rollingMean (closes f) 20)
      (rollingStd (closes f) 20)).length = (closes f).length := by
    simp [List.length_zipWith, rollingMean_length, rollingStd_length]
  obtain ⟨lo, hlo⟩ : ∃ x, (List.zipWith (bandSub (2 : ℚ)) (rollingMean (closes f) 20)
      (rollingStd (closes f) 20)).get? i = some x :=
    ⟨_, List.get?_eq_get (by rw [hlenL]; exact hi)⟩
  obtain ⟨hi2, hhi2⟩ : ∃ x, (List.zipWith (bandAdd (2 : ℚ)) (rollingMean (closes f) 20)
      (rollingStd (closes f) 20)).get? i = some x :=
    ⟨_, List.get?_eq_get (by rw [hlenU]; exact hi)⟩
  have hcl : cellAt (calculate_bollinger_bands f 20 2).colLower i = lo := by
    rw [bollinger_colLower, cellAt_some, hlo]; rfl
  have hcu : cellAt (calculate_bollinger_bands f 20 2).colUpper i = hi2 := by
    rw [bollinger_colUpper, cellAt_some, hhi2]; rfl
  rw [sigAt_eq _ _ _ (apply_bb_colSignal f), get?_zipWith3, hc, hlo, hhi2, hcl, hcu]

theorem sigAt_sma (f : Frame) (i : Nat) (hi : i < (closes f).length) :
    sigAt (apply_strategy f "SMA Crossover") i =
      some (smaSignalAt (cellAt (calculate_sma f 50 200).colSMAShort i)
        (cellAt (calculate_sma f 50 200).colSMALong i)) := by
  obtain ⟨s, hs⟩ : ∃ x, (rollingMean (closes f) 50).get? i = some x :=
    ⟨_, List.get?_eq_get (by rw [rollingMean_length]; exact hi)⟩
  obtain ⟨l, hl⟩ : ∃ x, (rollingMean (closes f) 200).get? i = some x :=
    ⟨_, List.get?_eq_get (by rw [rollingMean_length]; exact hi)⟩
  have hcs : cellAt (calculate_sma f 50 200).colSMAShort i = s := by
    rw [sma_colShort, cellAt_some, hs]; rfl
  have hclg : cellAt (calculate_sma f 50 200).colSMALong i = l := by
    rw [sma_colLong, cellAt_some, hl]; rfl
  rw [sigAt_eq _ _ _ (apply_sma_colSignal f), List.get?_zipWith' smaSignalAt, hs, hl,
    hcs, hclg]
  rfl

theorem closes_nil_iff (f : Frame) : closes f = [] ↔ f.bars = [] := by
  simp [closes]

theorem smaSignalAt_some (s l : ℚ) :
    smaSignalAt (some s) (some l) =
      if s < l then -1 else if l < s then 1 else 0 :=
  rfl

theorem smaSignalAt_none_right (s : Option ℚ) : smaSignalAt s none = 0 := by
  cases s <;> rfl

theorem smaSignalAt_none_left (l : Option ℚ) : smaSignalAt none l = 0 := by
  cases l <;> rfl

theorem bollingerSignalAt_some (c : ℚ) (lo hi : ℝ) :
    bollingerSignalAt c (some lo) (some hi) =
      if hi < (c : ℝ) then -1 else if (c : ℝ) < lo then 1 else 0 :=
  rfl

theorem bollingerSignalAt_none (c : ℚ) : bollingerSignalAt c none none = 0 :=
  rfl

theorem style_mult_aggressive : style_multipliers "Aggressive" = 3 / 2 :=
  rfl

theorem style_mult_moderate : style_multipliers "Moderate" = 1 :=
  rfl

theorem style_mult_passive : style_multipliers "Passive" = 3 / 4 :=
  rfl

theorem style_mult_fallback : style_multipliers "Speculative" = 1 :=
  rfl

theorem growth_eq (f : Frame) (a : ℚ) (style : String) (s e : ℚ)
    (h0 : (closes f).head? = some s) (h1 : (closes f).getLast? = some e) :
    calculate_investment_growth f a style =
      some (e / s * a * style_multipliers style,
        (e / s * a * style_multipliers style - a) / a * 100,
        { f with growthCols := (style ++ " Growth",
            (closes f).map (fun c => c / s * a * style_multipliers style))
            :: f.growthCols }) := by
  rw [calculate_investment_growth, h0, h1]

theorem growth_none_iff (f : Frame) (a : ℚ) (style : String) :
    calculate_investment_growth f a style = none ↔ f.bars = [] := by
  constructor
  · intro h
    by_contra hne
    have hcne : closes f ≠ [] := fun hh => hne ((closes_nil_iff f).mp hh)
    obtain ⟨s, hs⟩ := Option.isSome_iff_exists.mp (List.head?_isSome.mpr hcne)
    obtain ⟨e, he⟩ := Option.isSome_iff_exists.mp (List.getLast?_isSome.mpr hcne)
    rw [growth_eq f a style s e hs he] at h
    cases h
  · intro h
    have hc : closes f = [] := (closes_nil_iff f).mpr h
    rw [calculate_investment_growth, hc]
    rfl

theorem cellAt_out {α : Type} (l : List (Option α)) (i : Nat)
    (h : l.length ≤ i) :
    cellAt (some l) i = none := by
  rw [cellAt_some, List.get?_eq_none.mpr h]
  rfl

theorem mean_cell_undef (xs : List ℚ) (w i : Nat) (hi : i < xs.length)
    (hw : ¬ w ≤ i + 1) :
    (rollingMean xs w).get? i = some none := by
  rw [rollingMean_get? xs w i hi, if_neg hw]

theorem std_cell_undef (xs : List ℚ) (w i : Nat) (hi : i < xs.length)
    (hw : ¬ w ≤ i + 1) :
    (rollingStd xs w).get? i = some none := by
  rw [rollingStd_get?, rollingVar_get? xs w i hi, if_neg (fun hh => hw hh.1)]
  rfl

theorem bollinger_cells_undef (f : Frame) (w : Nat) (k : ℚ) (i : Nat)
    (hi : i < (closes f).length) (hw : ¬ w ≤ i + 1) :
    cellAt (calculate_bollinger_bands f w k).colSMA i = none ∧
    cellAt (calculate_bollinger_bands f w k).colSTD i = none ∧
    cellAt (calculate_bollinger_bands f w k).colUpper i = none ∧
    cellAt (calculate_bollinger_bands f w k).colLower i = none := by
  have hm := mean_cell_undef (closes f) w i hi hw
  have hs := std_cell_undef (closes f) w i hi hw
  refine ⟨?_, ?_, ?_, ?_⟩
  · rw [bollinger_colSMA, cellAt_some, hm]
    rfl
  · rw [bollinger_colSTD, cellAt_some, hs]
    rfl
  · rw [bollinger_colUpper, cellAt_some, List.get?_zipWith' (bandAdd k), hm, hs]
    rfl
  · rw [bollinger_colLower, cellAt_some, List.get?_zipWith' (bandSub k), hm, hs]
    rfl

theorem bollinger_cells_oob (f : Frame) (w : Nat) (k : ℚ) (i : Nat)
    (hi : (closes f).length ≤ i) :
    cellAt (calculate_bollinger_bands f w k).colSMA i = none ∧
    cellAt (calculate_bollinger_bands f w k).colSTD i = none ∧
    cellAt (calculate_bollinger_bands f w k).colUpper i = none ∧
    cellAt (calculate_bollinger_bands f w k).colLower i = none := by
  refine ⟨?_, ?_, ?_, ?_⟩
  · rw [bollinger_colSMA]
    exact cellAt_out _ i (by rw [rollingMean_length]; exact hi)
  · rw [bollinger_colSTD]
    exact cellAt_out _ i (by rw [rollingStd_length]; exact hi)
  · rw [bollinger_colUpper]
    exact cellAt_out _ i
      (by simpa [List.length_zipWith, rollingMean_length, rollingStd_length] using hi)
  · rw [bollinger_colLower]
    exact cellAt_out _ i
      (by simpa [List.length_zipWith, rollingMean_length, rollingStd_length] using hi)

end Lemmas

/-- Claim C10: for every strategy string other than "Bollinger Bands" and
"SMA Crossover", `apply_strategy` returns the input frame unchanged — no
indicator columns and no Signal column are added, and no error is raised,
so an unrecognized strategy silently produces a series with no signals. -/
theorem C10_unknown_strategy_identity (f : Frame) (s : String)
    (h1 : s ≠ "Bollinger Bands") (h2 : s ≠ "SMA Crossover") :
    apply_strategy f s = f ∧ (apply_strategy f s).colSignal = f.colSignal := by
  have h : apply_strategy f s = f := by
    rw [apply_strategy, if_neg h1, if_neg h2]
  exact ⟨h, by rw [h]⟩

/-- Witness for C10 at the strategy string "Momentum". -/
theorem C10_witness :
    apply_strategy oneBar "Momentum" = oneBar :=
  (C10_unknown_strategy_identity oneBar "Momentum"
    (by decide) (by decide)).1

/-- Claim C2 counterexample: a one-bar series (fewer than 2 bars) does not
fail — `calculate_investment_growth` returns final value
`principal × multiplier` and ROI 0. -/
theorem C2_counterexample :
    oneBar.bars.length = 1 ∧
    summaryOf oneBar 10000 "Moderate" = some (10000, 0) := by
  refine ⟨rfl, ?_⟩
  rw [summaryOf, growth_eq oneBar 10000 "Moderate" 100 100 rfl rfl,
    style_mult_moderate]
  norm_num

/-- Claim C2 (amended): the growth simulation performs no input
validation.  Only an empty series fails (the `iloc[0]` lookup raises);
every series with at least one bar — including one-bar series and series
with a zero or negative first close — returns a result, never an
InvalidInputError. -/
theorem C2_no_validation (f : Frame) (a : ℚ) (style : String) :
    (f.bars = [] → calculate_investment_growth f a style = none) ∧
    (f.bars ≠ [] → (calculate_investment_growth f a style).isSome = true) := by
  constructor
  · intro h
    exact (growth_none_iff f a style).mpr h
  · intro h
    rcases hr : calculate_investment_growth f a style with _ | r
    · exact absurd ((growth_none_iff f a style).mp hr) h
    · rfl

/-- Witness for C2 (amended) at the one-bar series. -/
theorem C2_witness :
    (calculate_investment_growth oneBar 10000 "Moderate").isSome = true :=
  (C2_no_validation oneBar 10000 "Moderate").2 (by decide)

/-- Claim C1 counterexample: closes fall from 100 to 50
(`end_close < start_close`), yet Aggressive final growth (7500) still
exceeds Moderate (5000) and Passive (3750) — the claimed reverse ordering
fails. -/
theorem C1_counterexample :
    (closes twoBarDown).head? = some 100 ∧
    (closes twoBarDown).getLast? = some 50 ∧
    finalOf twoBarDown 10000 "Aggressive" = some 7500 ∧
    finalOf twoBarDown 10000 "Moderate" = some 5000 ∧
    finalOf twoBarDown 10000 "Passive" = some 3750 ∧
    ¬ ((3750 : ℚ) ≥ (5000 : ℚ) ∧ (5000 : ℚ) ≥ (7500 : ℚ)) := by
  refine ⟨rfl, rfl, ?_, ?_, ?_, by norm_num⟩
  · rw [finalOf, growth_eq twoBarDown 10000 _ 100 50 rfl rfl,
      style_mult_aggressive]
    norm_num
  · rw [finalOf, growth_eq twoBarDown 10000 _ 100 50 rfl rfl,
      style_mult_moderate]
    norm_num
  · rw [finalOf, growth_eq twoBarDown 10000 _ 100 50 rfl rfl,
      style_mult_passive]
    norm_num

/-- Claim C1 (amended): for a positive start close, a nonnegative end
close and a nonnegative principal, the code always yields
`Aggressive finalGrowth ≥ Moderate ≥ Passive` — the style multiplier
scales the whole value, so the ordering does not reverse when
`end_close < start_close`. -/
theorem C1_style_ordering (f : Frame) (a s e : ℚ)
    (h0 : (closes f).head? = some s) (h1 : (closes f).getLast? = some e)
    (hs : 0 < s) (he : 0 ≤ e) (ha : 0 ≤ a)
    (ga gm gp : ℚ)
    (hga : finalOf f a "Aggressive" = some ga)
    (hgm : finalOf f a "Moderate" = some gm)
    (hgp : finalOf f a "Passive" = some gp) :
    gp ≤ gm ∧ gm ≤ ga := by
  rw [finalOf, growth_eq f a _ s e h0 h1, style_mult_aggressive] at hga
  rw [finalOf, growth_eq f a _ s e h0 h1, style_mult_moderate] at hgm
  rw [finalOf, growth_eq f a _ s e h0 h1, style_mult_passive] at hgp
  simp only [Option.map_some', Option.some_inj] at hga hgm hgp
  have hr : 0 ≤ e / s * a := by positivity
  constructor
  · rw [← hgp, ← hgm]; nlinarith
  · rw [← hgm, ← hga]; nlinarith

/-- Witness for C1 (amended) at the falling two-bar series. -/
theorem C1_witness : (3750 : ℚ) ≤ 5000 ∧ (5000 : ℚ) ≤ 7500 := by
  have hga : finalOf twoBarDown 10000 "Aggressive" = some 7500 := by
    rw [finalOf, growth_eq twoBarDown 10000 _ 100 50 rfl rfl,
      style_mult_aggressive]
    norm_num
  have hgm : finalOf twoBarDown 10000 "Moderate" = some 5000 := by
    rw [finalOf, growth_eq twoBarDown 10000 _ 100 50 rfl rfl,
      style_mult_moderate]
    norm_num
  have hgp : finalOf twoBarDown 10000 "Passive" = some 3750 := by
    rw [finalOf, growth_eq twoBarDown 10000 _ 100 50 rfl rfl,
      style_mult_passive]
    norm_num
  exact C1_style_ordering twoBarDown 10000 100 50 rfl rfl
    (by norm_num) (by norm_num) (by norm_num) 7500 5000 3750 hga hgm hgp

/-- Claim C9: whenever the simulation returns, the reported ROI satisfies
`roi = (growth / amount - 1) * 100` exactly, for every style string
(including the unrecognized-style fallback) and every nonzero principal. -/
theorem C9_roi_invariant (f : Frame) (a : ℚ) (style : String) (g r : ℚ)
    (ha : a ≠ 0) (h : summaryOf f a style = some (g, r)) :
    r = (g / a - 1) * 100 := by
  rcases hcl : (closes f).head? with _ | s
  · rw [summaryOf, calculate_investment_growth, hcl] at h
    cases h
  · have hcne : closes f ≠ [] := by
      intro hh
      rw [hh] at hcl
      cases hcl
    obtain ⟨e, he⟩ := Option.isSome_iff_exists.mp (List.getLast?_isSome.mpr hcne)
    rw [summaryOf, growth_eq f a style s e hcl he] at h
    simp only [Option.map_some', Option.some_inj, Prod.mk.injEq] at h
    obtain ⟨hg, hr⟩ := h
    rw [hg] at hr
    rw [← hr]
    field_simp

/-- Witness for C9 at an unrecognized style string (fallback multiplier
1.0): growth 12100 on principal 10000 gives ROI 21. -/
theorem C9_witness : (21 : ℚ) = (12100 / 10000 - 1) * 100 := by
  have h : summaryOf threeBar 10000 "Speculative" = some (12100, 21) := by
    rw [summaryOf, growth_eq threeBar 10000 _ 100 121 rfl rfl,
      style_mult_fallback]
    norm_num
  exact C9_roi_invariant threeBar 10000 "Speculative" 12100 21 (by norm_num) h

/-- Claim C3 counterexample: the indicator output is not a separate
structure — `calculate_bollinger_bands` writes its result as new columns
into the very table it was given (the returned frame is the post-call
state of the mutated argument). -/
theorem C3_counterexample :
    twoBarDown.colSMA = none ∧
    (calculate_bollinger_bands twoBarDown 20 2).colSMA ≠ none := by
  refine ⟨rfl, ?_⟩
  rw [bollinger_colSMA]
  simp

/-- Claim C3 (amended): the indicator computations leave every timestamp
and open/high/low/close value of the input unchanged, but they attach
their output by writing indicator columns into the same table in place,
not into a separate structure. -/
theorem C3_inplace_augmentation (f : Frame) (w : Nat) (k : ℚ) (sw lw : Nat) :
    (calculate_bollinger_bands f w k).bars = f.bars ∧
    (calculate_sma f sw lw).bars = f.bars ∧
    ((calculate_bollinger_bands f w k).colSMA).isSome = true ∧
    ((calculate_bollinger_bands f w k).colSTD).isSome = true ∧
    ((calculate_bollinger_bands f w k).colUpper).isSome = true ∧
    ((calculate_bollinger_bands f w k).colLower).isSome = true ∧
    ((calculate_sma f sw lw).colSMAShort).isSome = true ∧
    ((calculate_sma f sw lw).colSMALong).isSome = true :=
  ⟨rfl, rfl, rfl, rfl, rfl, rfl, rfl, rfl⟩

/-- Claim C4: with a positive first close `s` (taken from the first bar of
the full series, before any display filtering), the attached trajectory is
`(close / s) * principal * multiplier` bar by bar; its first entry is
`principal * multiplier` and its last entry is exactly the returned
`finalGrowth`. -/
theorem C4_trajectory (f : Frame) (a : ℚ) (style : String) (s : ℚ)
    (h0 : (closes f).head? = some s) (hs : 0 < s) :
    trajOf f a style =
      some ((closes f).map (fun c => c / s * a * style_multipliers style)) ∧
    (trajOf f a style).bind List.head? = some (a * style_multipliers style) ∧
    (trajOf f a style).bind List.getLast? = finalOf f a style := by
  have hcne : closes f ≠ [] := by
    intro hh
    rw [hh] at h0
    cases h0
  obtain ⟨e, he⟩ := Option.isSome_iff_exists.mp (List.getLast?_isSome.mpr hcne)
  have htraj : trajOf f a style =
      some ((closes f).map (fun c => c / s * a * style_multipliers style)) := by
    rw [trajOf, growth_eq f a style s e h0 he]
    show growthCol _ style = _
    rw [growthCol]
    simp [List.lookup]
  refine ⟨htraj, ?_, ?_⟩
  · rw [htraj]
    rcases hcl : closes f with _ | ⟨x, xs⟩
    · exact absurd hcl hcne
    · rw [hcl] at h0
      have hx : x = s := by
        simpa using h0
      subst hx
      show some (x / x * a * style_multipliers style) = _
      rw [div_self (ne_of_gt hs), one_mul]
  · rw [htraj, finalOf, growth_eq f a style s e h0 he]
    show ((closes f).map (fun c => c / s * a * style_multipliers style)).getLast?
      = some (e / s * a * style_multipliers style)
    rw [List.getLast?_map, he]
    rfl

/-- Witness for C4 at the spec scenario series (closes 100, 110, 121,
principal 10000, Moderate): trajectory 10000, 11000, 12100. -/
theorem C4_witness :
    trajOf threeBar 10000 "Moderate" = some [10000, 11000, 12100] := by
  rw [(C4_trajectory threeBar 10000 "Moderate" 100 rfl (by norm_num)).1,
    style_mult_moderate]
  have hc : closes threeBar = [100, 110, 121] := rfl
  rw [hc]
  norm_num [List.map]

/-- Claim C6: under the SMA Crossover strategy, wherever both rolling
means are defined the signal is Buy (1) iff `sma_short > sma_long`,
Sell (-1) iff `sma_short < sma_long`, and Hold (0) iff they are equal —
a level comparison holding at every such bar, not only at crossings. -/
theorem C6_sma_signal_rule (f : Frame) (i : Nat) (s l : ℚ) (v : Int)
    (hs : cellAt (apply_strategy f "SMA Crossover").colSMAShort i = some s)
    (hl : cellAt (apply_strategy f "SMA Crossover").colSMALong i = some l)
    (hv : sigAt (apply_strategy f "SMA Crossover") i = some v) :
    (v = 1 ↔ l < s) ∧ (v = -1 ↔ s < l) ∧ (v = 0 ↔ s = l) := by
  rw [apply_sma_colShort] at hs
  rw [apply_sma_colLong] at hl
  have hi : i < (closes f).length := by
    rw [sma_colShort, cellAt_some] at hs
    obtain ⟨hlt, -⟩ := List.get?_eq_some.mp (Option.join_eq_some.mp hs)
    rwa [rollingMean_length] at hlt
  rw [sigAt_sma f i hi, hs, hl] at hv
  have hv2 : smaSignalAt (some s) (some l) = v := by
    simpa using hv
  rw [← hv2]
  rcases lt_trichotomy s l with h | h | h
  · rw [smaSignalAt_some, if_pos h]
    exact ⟨iff_of_false (by decide) (fun hh => lt_asymm h hh),
      iff_of_true rfl h, iff_of_false (by decide) (ne_of_lt h)⟩
  · rw [smaSignalAt_some, if_neg (by simp [h]), if_neg (by simp [h])]
    exact ⟨iff_of_false (by decide) (by simp [h]),
      iff_of_false (by decide) (by simp [h]), iff_of_true rfl h⟩
  · rw [smaSignalAt_some, if_neg (lt_asymm h), if_pos h]
    exact ⟨iff_of_true rfl h, iff_of_false (by decide) (fun hh => lt_asymm h hh),
      iff_of_false (by decide) (ne_of_gt h)⟩

/-- Witness for C6 on a 200-bar constant series at bar 199, where both
means equal 50 and the signal is Hold. -/
theorem C6_witness :
    ((0 : Int) = 1 ↔ (50 : ℚ) < 50) ∧ ((0 : Int) = -1 ↔ (50 : ℚ) < 50) ∧
    ((0 : Int) = 0 ↔ (50 : ℚ) = 50) := by
  have hcl : closes (constFrame 200 50) = List.replicate 200 50 :=
    closes_constFrame 200 50
  have hshort : (rollingMean (closes (constFrame 200 50)) 50).get? 199
      = some (some 50) := by
    rw [hcl]
    exact rollingMean_replicate 200 50 199 50 (by norm_num) (by norm_num) (by norm_num)
  have hlong : (rollingMean (closes (constFrame 200 50)) 200).get? 199
      = some (some 50) := by
    rw [hcl]
    exact rollingMean_replicate 200 200 199 50 (by norm_num) (by norm_num) (by norm_num)
  have hs : cellAt (apply_strategy (constFrame 200 50) "SMA Crossover").colSMAShort 199
      = some 50 := by
    rw [apply_sma_colShort, sma_colShort, cellAt_some, hshort]
    rfl
  have hl : cellAt (apply_strategy (constFrame 200 50) "SMA Crossover").colSMALong 199
      = some 50 := by
    rw [apply_sma_colLong, sma_colLong, cellAt_some, hlong]
    rfl
  have hi : 199 < (closes (constFrame 200 50)).length := by
    rw [hcl, List.length_replicate]
    norm_num
  have hv : sigAt (apply_strategy (constFrame 200 50) "SMA Crossover") 199
      = some 0 := by
    rw [sigAt_sma (constFrame 200 50) 199 hi]
    rw [apply_sma_colShort] at hs
    rw [apply_sma_colLong] at hl
    rw [hs, hl, smaSignalAt_some]
    norm_num
  exact C6_sma_signal_rule (constFrame 200 50) 199 50 50 0 hs hl hv

/-- Claim C8: at every bar where the Bollinger fields are defined (with
`k = 2` and the sample, `N - 1`, standard deviation),
`upper = sma + 2 * std` and `lower = sma - 2 * std`, hence
`lower ≤ upper`, with equality (both collapsing to `sma`) exactly when
`std = 0`. -/
theorem C8_band_relations (f : Frame) (w i : Nat) (m : ℚ) (sd u l : ℝ)
    (hm : cellAt (calculate_bollinger_bands f w 2).colSMA i = some m)
    (hsd : cellAt (calculate_bollinger_bands f w 2).colSTD i = some sd)
    (hu : cellAt (calculate_bollinger_bands f w 2).colUpper i = some u)
    (hl : cellAt (calculate_bollinger_bands f w 2).colLower i = some l) :
    u = (m : ℝ) + 2 * sd ∧ l = (m : ℝ) - 2 * sd ∧ l ≤ u ∧ (u = l ↔ sd = 0) := by
  rw [bollinger_colSTD, cellAt_some] at hsd
  obtain ⟨v, hv, hsdv⟩ :=
    std_cell_inv (closes f) w i sd (Option.join_eq_some.mp hsd)
  obtain ⟨m1, v1, hm1, hv1, hu1⟩ := upper_cell_inv f w i 2 u hu
  obtain ⟨m2, v2, hm2, hv2, hl1⟩ := lower_cell_inv f w i 2 l hl
  rw [bollinger_colSMA, cellAt_some] at hm
  have hmm := Option.join_eq_some.mp hm
  have e1 : m1 = m := by
    have := hm1.symm.trans hmm
    simpa using this
  have e2 : m2 = m := by
    have := hm2.symm.trans hmm
    simpa using this
  have ev1 : v1 = v := by
    have := hv1.symm.trans hv
    simpa using this
  have ev2 : v2 = v := by
    have := hv2.symm.trans hv
    simpa using this
  rw [e1, ev1] at hu1
  rw [e2, ev2] at hl1
  have hsd0 : 0 ≤ sd := by
    rw [hsdv]
    exact Real.sqrt_nonneg _
  have hu2 : u = (m : ℝ) + 2 * sd := by
    rw [hu1, ← hsdv]
    push_cast
    ring
  have hl2 : l = (m : ℝ) - 2 * sd := by
    rw [hl1, ← hsdv]
    push_cast
    ring
  refine ⟨hu2, hl2, by rw [hu2, hl2]; linarith, ?_⟩
  constructor
  · intro h
    rw [hu2, hl2] at h
    linarith
  · intro h
    rw [hu2, hl2, h]
    ring

/-- Witness for C8 on a 20-bar constant series at bar 19: sma 50, std 0,
upper = lower = 50. -/
theorem C8_witness :
    (50 : ℝ) = ((50 : ℚ) : ℝ) + 2 * 0 ∧ (50 : ℝ) = ((50 : ℚ) : ℝ) - 2 * 0 ∧
    (50 : ℝ) ≤ (50 : ℝ) ∧ ((50 : ℝ) = (50 : ℝ) ↔ (0 : ℝ) = 0) := by
  have hcl : closes (constFrame 20 50) = List.replicate 20 50 :=
    closes_constFrame 20 50
  have hm : (rollingMean (closes (constFrame 20 50)) 20).get? 19
      = some (some 50) := by
    rw [hcl]
    exact rollingMean_replicate 20 20 19 50 (by norm_num) (by norm_num) (by norm_num)
  have hv : (rollingVar (closes (constFrame 20 50)) 20).get? 19
      = some (some 0) := by
    rw [hcl]
    exact rollingVar_replicate 20 20 19 50 (by norm_num) (by norm_num) (by norm_num)
  obtain ⟨hA, hB, hC, hD⟩ :=
    bollinger_cells_of (constFrame 20 50) 20 19 2 50 0 hm hv
  have hsqrt : Real.sqrt ((0 : ℚ) : ℝ) = 0 := by
    rw [Rat.cast_zero, Real.sqrt_zero]
  rw [hsqrt] at hB hC hD
  have hCv : ((50 : ℚ) : ℝ) + ((2 : ℚ) : ℝ) * 0 = 50 := by
    push_cast
    ring
  have hDv : ((50 : ℚ) : ℝ) - ((2 : ℚ) : ℝ) * 0 = 50 := by
    push_cast
    ring
  rw [hCv] at hC
  rw [hDv] at hD
  exact C8_band_relations (constFrame 20 50) 20 19 50 0 50 50 hA hB hC hD

/-- Claim C5: under the Bollinger Bands strategy, at every bar where the
bands are defined the signal is Buy (1) exactly when `close < lower`,
Sell (-1) exactly when `close > upper`, and Hold (0) otherwise, all on
the same bar's values; at `close = lower` or `close = upper` the signal
is Hold (strict inequalities only). -/
theorem C5_bollinger_signal_rule (f : Frame) (i : Nat) (c : ℚ) (lo hi : ℝ)
    (v : Int)
    (hc : (closes f).get? i = some c)
    (hlo : cellAt (apply_strategy f "Bollinger Bands").colLower i = some lo)
    (hhi : cellAt (apply_strategy f "Bollinger Bands").colUpper i = some hi)
    (hv : sigAt (apply_strategy f "Bollinger Bands") i = some v) :
    (v = 1 ↔ (c : ℝ) < lo) ∧ (v = -1 ↔ hi < (c : ℝ)) ∧
    (v = 0 ↔ (lo ≤ (c : ℝ) ∧ (c : ℝ) ≤ hi)) := by
  rw [apply_bb_colLower] at hlo
  rw [apply_bb_colUpper] at hhi
  obtain ⟨m1, v1, hm1, hv1, hhi1⟩ := upper_cell_inv f 20 i 2 hi hhi
  obtain ⟨m2, v2, hm2, hv2, hlo1⟩ := lower_cell_inv f 20 i 2 lo hlo
  have e1 : m2 = m1 := by
    have := hm2.symm.trans hm1
    simpa using this
  have e2 : v2 = v1 := by
    have := hv2.symm.trans hv1
    simpa using this
  rw [e1, e2] at hlo1
  have hc2 : ((2 : ℚ) : ℝ) = 2 := by norm_num
  rw [hc2] at hlo1 hhi1
  have hle : lo ≤ hi := by
    rw [hlo1, hhi1]
    have := Real.sqrt_nonneg ((v1 : ℚ) : ℝ)
    linarith
  rw [sigAt_bb f i c hc, hlo, hhi] at hv
  have hv2 : bollingerSignalAt c (some lo) (some hi) = v := by
    simpa using hv
  rw [← hv2, bollingerSignalAt_some]
  by_cases h1 : hi < (c : ℝ)
  · rw [if_pos h1]
    exact ⟨iff_of_false (by decide) (fun hh => lt_asymm h1 (lt_of_lt_of_le hh hle)),
      iff_of_true rfl h1,
      iff_of_false (by decide) (fun hh => absurd h1 (not_lt.mpr hh.2))⟩
  · rw [if_neg h1]
    by_cases h2 : (c : ℝ) < lo
    · rw [if_pos h2]
      exact ⟨iff_of_true rfl h2, iff_of_false (by decide) h1,
        iff_of_false (by decide) (fun hh => absurd h2 (not_lt.mpr hh.1))⟩
    · rw [if_neg h2]
      exact ⟨iff_of_false (by decide) h2, iff_of_false (by decide) h1,
        iff_of_true rfl ⟨not_lt.mp h2, not_lt.mp h1⟩⟩

/-- Witness for C5 on a 20-bar constant series at bar 19, where
`close = lower = upper = 50` and the signal is Hold. -/
theorem C5_witness :
    ((0 : Int) = 1 ↔ (((50 : ℚ) : ℝ)) < 50) ∧
    ((0 : Int) = -1 ↔ (50 : ℝ) < ((50 : ℚ) : ℝ)) ∧
    ((0 : Int) = 0 ↔ ((50 : ℝ) ≤ ((50 : ℚ) : ℝ) ∧ ((50 : ℚ) : ℝ) ≤ (50 : ℝ))) := by
  have hcl : closes (constFrame 20 50) = List.replicate 20 50 :=
    closes_constFrame 20 50
  have hc : (closes (constFrame 20 50)).get? 19 = some 50 := by
    rw [hcl]
    rfl
  have hm : (rollingMean (closes (constFrame 20 50)) 20).get? 19
      = some (some 50) := by
    rw [hcl]
    exact rollingMean_replicate 20 20 19 50 (by norm_num) (by norm_num) (by norm_num)
  have hvv : (rollingVar (closes (constFrame 20 50)) 20).get? 19
      = some (some 0) := by
    rw [hcl]
    exact rollingVar_replicate 20 20 19 50 (by norm_num) (by norm_num) (by norm_num)
  obtain ⟨hA, hB, hC, hD⟩ :=
    bollinger_cells_of (constFrame 20 50) 20 19 2 50 0 hm hvv
  have hsqrt : Real.sqrt ((0 : ℚ) : ℝ) = 0 := by
    rw [Rat.cast_zero, Real.sqrt_zero]
  rw [hsqrt] at hC hD
  have hCv : ((50 : ℚ) : ℝ) + ((2 : ℚ) : ℝ) * 0 = 50 := by
    push_cast
    ring
  have hDv : ((50 : ℚ) : ℝ) - ((2 : ℚ) : ℝ) * 0 = 50 := by
    push_cast
    ring
  rw [hCv] at hC
  rw [hDv] at hD
  have hv : sigAt (apply_strategy (constFrame 20 50) "Bollinger Bands") 19
      = some 0 := by
    rw [sigAt_bb (constFrame 20 50) 19 50 hc, hD, hC, bollingerSignalAt_some]
    have : ¬ ((50 : ℝ) < ((50 : ℚ) : ℝ)) := by push_cast; norm_num
    rw [if_neg this]
    have h2 : ¬ (((50 : ℚ) : ℝ) < (50 : ℝ)) := by push_cast; norm_num
    rw [if_neg h2]
  exact C5_bollinger_signal_rule (constFrame 20 50) 19 50 50 50 0 hc hD hC hv

/-- Claim C7: wherever the underlying rolling indicator is undefined (the
first `window - 1` bars, or every bar of a series shorter than the
window) the derived signal is Hold; in particular a series of exactly 19
bars (window 20) has every Bollinger field undefined at every bar and all
signals Hold. -/
theorem C7_undefined_hold :
    (∀ (f : Frame) (i : Nat) (c : ℚ), (closes f).get? i = some c →
      i + 1 < 20 → sigAt (apply_strategy f "Bollinger Bands") i = some 0) ∧
    (∀ (f : Frame) (i : Nat), i < (closes f).length → i + 1 < 200 →
      sigAt (apply_strategy f "SMA Crossover") i = some 0) ∧
    (∀ f : Frame, f.bars.length = 19 →
      (∀ i : Nat,
        cellAt (calculate_bollinger_bands f 20 2).colSMA i = none ∧
        cellAt (calculate_bollinger_bands f 20 2).colSTD i = none ∧
        cellAt (calculate_bollinger_bands f 20 2).colUpper i = none ∧
        cellAt (calculate_bollinger_bands f 20 2).colLower i = none) ∧
      (∀ (i : Nat) (c : ℚ), (closes f).get? i = some c →
        sigAt (apply_strategy f "Bollinger Bands") i = some 0)) := by
  have p1 : ∀ (f : Frame) (i : Nat) (c : ℚ), (closes f).get? i = some c →
      i + 1 < 20 → sigAt (apply_strategy f "Bollinger Bands") i = some 0 := by
    intro f i c hc hlt
    obtain ⟨hi, -⟩ := List.get?_eq_some.mp hc
    obtain ⟨-, -, hU, hL⟩ := bollinger_cells_undef f 20 2 i hi (by omega)
    rw [sigAt_bb f i c hc, hL, hU, bollingerSignalAt_none]
  have p2 : ∀ (f : Frame) (i : Nat), i < (closes f).length → i + 1 < 200 →
      sigAt (apply_strategy f "SMA Crossover") i = some 0 := by
    intro f i hi hlt
    have hlong : cellAt (calculate_sma f 50 200).colSMALong i = none := by
      rw [sma_colLong, cellAt_some,
        mean_cell_undef (closes f) 200 i hi (by omega)]
      rfl
    rw [sigAt_sma f i hi, hlong, smaSignalAt_none_right]
  refine ⟨p1, p2, ?_⟩
  intro f hf
  have hlen : (closes f).length = 19 := by
    simp [closes, hf]
  constructor
  · intro i
    by_cases hi : i < (closes f).length
    · have hi19 : i < 19 := hlen ▸ hi
      exact bollinger_cells_undef f 20 2 i hi (by omega)
    · exact bollinger_cells_oob f 20 2 i (le_of_not_lt hi)
  · intro i c hc
    obtain ⟨hi, -⟩ := List.get?_eq_some.mp hc
    have hi19 : i < 19 := hlen ▸ hi
    exact p1 f i c hc (by omega)

/-- Witness for C7: a 19-bar series yields Hold and undefined bands; the
200-bar SMA case yields Hold on an early bar. -/
theorem C7_witness :
    sigAt (apply_strategy (constFrame 19 50) "Bollinger Bands") 0 = some 0 ∧
    sigAt (apply_strategy (constFrame 200 50) "SMA Crossover") 10 = some 0 ∧
    cellAt (calculate_bollinger_bands (constFrame 19 50) 20 2).colUpper 5
      = none := by
  refine ⟨?_, ?_, ?_⟩
  · exact C7_undefined_hold.1 (constFrame 19 50) 0 50
      (by rw [closes_constFrame]; rfl) (by omega)
  · exact C7_undefined_hold.2.1 (constFrame 200 50) 10
      (by rw [closes_constFrame, List.length_replicate]; omega) (by omega)
  · exact (((C7_undefined_hold.2.2 (constFrame 19 50)
      (by simp [constFrame, baseFrame])).1) 5).2.2.1

end StockTrader
